import Mathlib

/-!
# Verification of the growth-tracker server handlers

A shallow embedding of the server-side handlers of the growth-tracker
repository, together with proofs about the claims of its specification.

The relational store is modelled by `DB`, a record of the three row lists the
specified core touches (`users`, `goals`, `memberships`).  Timestamps are
natural numbers; the current time is passed to each handler as a `now`
parameter.  JavaScript `undefined` on optional input fields is `none`; an
explicit `null` on a nullable field is `some none`.  Fallible handlers return
`Except`; the single persistence write of each handler happens only on the
`.ok` path, exactly as in the source, where every failed check throws before
the insert/update statement is reached.

Embedded source files:
* `handlers/create_team_membership.ts` (`createTeamMembership`,
  `checkCircularReporting`),
* `handlers/approve_goal.ts` (`approveGoal`),
* `updateGoal` (real implementation, shipped alongside
  `get_chat_sessions_by_user.ts`),
* `createUser`, `updateUser`, `createGoal` (real implementations of the
  user/goal creation and update handlers).
-/

namespace GrowthTracker

/-- `user_role` enum of `db/schema.ts`. -/
inductive Role where
  | Employee
  | Manager
  | HR_Admin
  | System_Admin
deriving DecidableEq, Repr

/-- `goal_status` enum of `db/schema.ts`. -/
inductive GoalStatus where
  | Draft
  | Pending_Approval
  | Approved
  | In_Progress
  | Completed
  | Cancelled
deriving DecidableEq, Repr

/-- `goal_priority` enum of `db/schema.ts`. -/
inductive GoalPriority where
  | Low
  | Medium
  | High
  | Critical
deriving DecidableEq, Repr

/-- A row of `usersTable`. -/
structure User where
  id : Nat
  email : String
  first_name : String
  last_name : String
  role : Role
  department : Option String
  manager_id : Option Nat
  profile_picture : Option String
  created_at : Nat
  updated_at : Nat
deriving DecidableEq, Repr

/-- A row of `goalsTable`. -/
structure Goal where
  id : Nat
  title : String
  description : String
  status : GoalStatus
  priority : GoalPriority
  employee_id : Nat
  manager_id : Option Nat
  due_date : Option Nat
  completed_date : Option Nat
  approval_date : Option Nat
  created_at : Nat
  updated_at : Nat
deriving DecidableEq, Repr

/-- A row of `teamMembershipsTable`. -/
structure TeamMembership where
  id : Nat
  manager_id : Nat
  employee_id : Nat
  created_at : Nat
deriving DecidableEq, Repr

/-- The relational store, restricted to the three tables the specified core
reads or writes. -/
structure DB where
  users : List User
  goals : List Goal
  memberships : List TeamMembership
deriving DecidableEq, Repr

/-- `db.select().from(usersTable).where(eq(usersTable.id, id))`, first row. -/
def findUserById (db : DB) (id : Nat) : Option User :=
  db.users.find? (fun u => u.id == id)

/-- `db.select().from(goalsTable).where(eq(goalsTable.id, id))`, first row. -/
def findGoalById (db : DB) (id : Nat) : Option Goal :=
  db.goals.find? (fun g => g.id == id)

/-- A fresh serial primary key: strictly larger than every id already used. -/
def freshId (ids : List Nat) : Nat :=
  ids.foldr (fun a b => Nat.max a b) 0 + 1

/-- The role list of the `['Manager', 'HR_Admin', 'System_Admin']` checks. -/
def allowedManagerRoles : List Role :=
  [Role.Manager, Role.HR_Admin, Role.System_Admin]

/-! ## The cycle checker of `create_team_membership.ts`

`checkCircularReporting` in the source is a recursive DFS sharing one mutable
visited set.  The embedding threads the visited list explicitly and uses a
fuel parameter to make the recursion structural; `ccrStabilizes` below proves
the result is independent of the fuel once the fuel exceeds the number of
rows, so `checkCircularReporting` computes the value of the source's
unbounded recursion. -/

/-- The `for (const membership of managerMemberships)` loop: return `true` as
soon as a row's `manager_id` equals the proposed employee, otherwise recurse
into that manager via `next` (threading the shared visited set), and fall
through to `false` when the row list is exhausted. -/
def ccrLoop (employeeId : Nat) (next : Nat → List Nat → Bool × List Nat) :
    List TeamMembership → List Nat → Bool × List Nat
  | [], visited => (false, visited)
  | m :: rest, visited =>
    if m.manager_id == employeeId then (true, visited)
    else
      let r := next m.manager_id visited
      if r.1 then (true, r.2) else ccrLoop employeeId next rest r.2

/-- One activation of `checkCircularReporting(managerId, employeeId, visited)`:
a visited node is not re-expanded (`return false; // Avoid infinite loops`),
otherwise the node is added to the visited set and every membership row with
`employee_id = managerId` is examined by the loop. -/
def ccrGo (edges : List TeamMembership) (employeeId : Nat) :
    Nat → Nat → List Nat → Bool × List Nat
  | 0, _, visited => (false, visited)
  | fuel + 1, managerId, visited =>
    if managerId ∈ visited then (false, visited)
    else
      ccrLoop employeeId (ccrGo edges employeeId fuel)
        (edges.filter (fun m => m.employee_id == managerId)) (managerId :: visited)

/-- `checkCircularReporting(input.manager_id, input.employee_id)` with its
initially empty visited set.  `edges.length + 1` fuel is enough for the
traversal to run to completion (`ccrStabilizes`). -/
def checkCircularReporting (edges : List TeamMembership)
    (managerId employeeId : Nat) : Bool :=
  (ccrGo edges employeeId (edges.length + 1) managerId []).1

/-- The cycle check as a function of the database state: it reads only the
`teamMembershipsTable` rows. -/
def wouldCreateCycle (db : DB) (proposedManagerId proposedEmployeeId : Nat) : Bool :=
  checkCircularReporting db.memberships proposedManagerId proposedEmployeeId

/-- The distinct error conditions thrown by `createTeamMembership`. -/
inductive TMError where
  | managerNotFound
  | employeeNotFound
  | selfManagement
  | insufficientRole
  | duplicateMembership
  | circularReporting
deriving DecidableEq, Repr

/-- `handlers/create_team_membership.ts`: validate both users, reject
self-management, reject a manager whose role is not in
`allowedManagerRoles`, reject a duplicate pair, reject a circular
relationship, and only then insert the row. -/
def createTeamMembership (db : DB) (manager_id employee_id : Nat) (now : Nat) :
    Except TMError (DB × TeamMembership) :=
  match findUserById db manager_id with
  | none => .error .managerNotFound
  | some managerData =>
    match findUserById db employee_id with
    | none => .error .employeeNotFound
    | some _ =>
      if manager_id = employee_id then .error .selfManagement
      else if managerData.role ∉ allowedManagerRoles then .error .insufficientRole
      else if db.memberships.any
          (fun m => m.manager_id == manager_id && m.employee_id == employee_id) then
        .error .duplicateMembership
      else if checkCircularReporting db.memberships manager_id employee_id then
        .error .circularReporting
      else
        let row : TeamMembership :=
          { id := freshId (db.memberships.map (fun m => m.id)),
            manager_id := manager_id, employee_id := employee_id, created_at := now }
        .ok ({ db with memberships := db.memberships ++ [row] }, row)

/-- The distinct error conditions thrown by `approveGoal`. -/
inductive ApproveError where
  | goalNotFound
  | notPendingApproval (current : GoalStatus)
  | managerNotFound
  | insufficientRole
  | employeeNotFound
  | noPermission
deriving DecidableEq, Repr

/-- The `.set({status, manager_id, approval_date, updated_at})` payload of the
approval update. -/
def applyApproval (g : Goal) (managerId now : Nat) : Goal :=
  { g with status := GoalStatus.Approved, manager_id := some managerId,
           approval_date := some now, updated_at := now }

/-- `db.update(goalsTable).set(...).where(eq(goalsTable.id, goalId))`:
apply `f` to every row whose id matches. -/
def updateGoalRows (db : DB) (goalId : Nat) (f : Goal → Goal) : DB :=
  { db with goals := db.goals.map (fun g => if g.id == goalId then f g else g) }

/-- `handlers/approve_goal.ts`: look the goal up, require `Pending_Approval`,
look the acting user up, require an allowed role, compute `canApprove` from
the goal's assigned manager and the admin roles, fall back to the employee's
direct manager, and finally write the approval. -/
def approveGoal (db : DB) (goalId managerId : Nat) (now : Nat) :
    Except ApproveError (DB × Goal) :=
  match findGoalById db goalId with
  | none => .error .goalNotFound
  | some goal =>
    if goal.status ≠ GoalStatus.Pending_Approval then
      .error (.notPendingApproval goal.status)
    else
      match findUserById db managerId with
      | none => .error .managerNotFound
      | some managerUser =>
        if managerUser.role ∉ allowedManagerRoles then .error .insufficientRole
        else
          if goal.manager_id = some managerId ∨ managerUser.role = Role.HR_Admin ∨
              managerUser.role = Role.System_Admin then
            .ok (updateGoalRows db goalId (fun g => applyApproval g managerId now),
                 applyApproval goal managerId now)
          else
            match findUserById db goal.employee_id with
            | none => .error .employeeNotFound
            | some employee =>
              if employee.manager_id ≠ some managerId then .error .noPermission
              else
                .ok (updateGoalRows db goalId (fun g => applyApproval g managerId now),
                     applyApproval goal managerId now)

/-- `UpdateGoalInput` of `schema.ts`: absent field = `none`, explicit `null`
on a nullable field = `some none`. -/
structure UpdateGoalInput where
  id : Nat
  title : Option String := none
  description : Option String := none
  status : Option GoalStatus := none
  priority : Option GoalPriority := none
  manager_id : Option (Option Nat) := none
  due_date : Option (Option Nat) := none
  completed_date : Option (Option Nat) := none
  approval_date : Option (Option Nat) := none
deriving DecidableEq, Repr

/-- The `updateData` object of `updateGoal`: a field is `none` while the
handler has not assigned it. -/
structure GoalPatch where
  title : Option String := none
  description : Option String := none
  status : Option GoalStatus := none
  priority : Option GoalPriority := none
  manager_id : Option (Option Nat) := none
  due_date : Option (Option Nat) := none
  completed_date : Option (Option Nat) := none
  approval_date : Option (Option Nat) := none
  updated_at : Option Nat := none
deriving DecidableEq, Repr

/-- The `if (input.status !== undefined)` block of `updateGoal`: record the
new status, set `approval_date` when the status moves to `Approved` from a
different status, set `completed_date` when it moves to `Completed` from a
different status, and clear `completed_date` when it leaves `Completed`. -/
def statusPatch (current : Goal) (patch : GoalPatch) (s : GoalStatus) (now : Nat) :
    GoalPatch :=
  let p := { patch with status := some s }
  let p := if s = GoalStatus.Approved ∧ current.status ≠ GoalStatus.Approved then
             { p with approval_date := some (some now) } else p
  let p := if s = GoalStatus.Completed ∧ current.status ≠ GoalStatus.Completed then
             { p with completed_date := some (some now) } else p
  let p := if s ≠ GoalStatus.Completed ∧ current.status = GoalStatus.Completed then
             { p with completed_date := some none } else p
  p

/-- Applying the accumulated `updateData` to a row: assigned fields replace
the row's fields, unassigned fields keep them. -/
def applyGoalPatch (g : Goal) (p : GoalPatch) : Goal :=
  { g with
    title := p.title.getD g.title,
    description := p.description.getD g.description,
    status := p.status.getD g.status,
    priority := p.priority.getD g.priority,
    manager_id := p.manager_id.getD g.manager_id,
    due_date := p.due_date.getD g.due_date,
    completed_date := p.completed_date.getD g.completed_date,
    approval_date := p.approval_date.getD g.approval_date,
    updated_at := p.updated_at.getD g.updated_at }

/-- The only error thrown by `updateGoal` before its write. -/
inductive UpdateGoalError where
  | goalNotFound
deriving DecidableEq, Repr

/-- `if (input.title !== undefined) updateData.title = input.title`. -/
def patchTitle (p : GoalPatch) : Option String → GoalPatch
  | none => p
  | some t => { p with title := some t }

/-- `if (input.description !== undefined) ...`. -/
def patchDescription (p : GoalPatch) : Option String → GoalPatch
  | none => p
  | some d => { p with description := some d }

/-- `if (input.priority !== undefined) ...`. -/
def patchPriority (p : GoalPatch) : Option GoalPriority → GoalPatch
  | none => p
  | some pr => { p with priority := some pr }

/-- `if (input.manager_id !== undefined) ...`. -/
def patchManagerId (p : GoalPatch) : Option (Option Nat) → GoalPatch
  | none => p
  | some m => { p with manager_id := some m }

/-- `if (input.due_date !== undefined) ...`. -/
def patchDueDate (p : GoalPatch) : Option (Option Nat) → GoalPatch
  | none => p
  | some d => { p with due_date := some d }

/-- The `completed_date` manual override (source comment: allow manual
override of `completed_date` if provided). -/
def patchCompletedDate (p : GoalPatch) : Option (Option Nat) → GoalPatch
  | none => p
  | some c => { p with completed_date := some c }

/-- The `approval_date` manual override. -/
def patchApprovalDate (p : GoalPatch) : Option (Option Nat) → GoalPatch
  | none => p
  | some a => { p with approval_date := some a }

/-- The `if (input.status !== undefined)` block. -/
def patchStatus (current : Goal) (p : GoalPatch) (now : Nat) :
    Option GoalStatus → GoalPatch
  | none => p
  | some s => statusPatch current p s now

/-- The complete `updateData` object accumulated by `updateGoal`, in source
order: `updated_at` first, then the status block, then the other provided
fields, with the `completed_date` and `approval_date` manual overrides last
(so they win over the status block). -/
def updateGoalPatch (current : Goal) (input : UpdateGoalInput) (now : Nat) :
    GoalPatch :=
  patchApprovalDate
    (patchCompletedDate
      (patchDueDate
        (patchManagerId
          (patchPriority
            (patchDescription
              (patchTitle
                (patchStatus current { updated_at := some now } now input.status)
                input.title)
              input.description)
            input.priority)
          input.manager_id)
        input.due_date)
      input.completed_date)
    input.approval_date

/-- The real `updateGoal` handler: require the goal to exist, accumulate
`updateData`, and write it to the matching rows. -/
def updateGoal (db : DB) (input : UpdateGoalInput) (now : Nat) :
    Except UpdateGoalError (DB × Goal) :=
  match findGoalById db input.id with
  | none => .error .goalNotFound
  | some current =>
    .ok (updateGoalRows db input.id
           (fun g => applyGoalPatch g (updateGoalPatch current input now)),
         applyGoalPatch current (updateGoalPatch current input now))

/-- `CreateUserInput` of `schema.ts`. -/
structure CreateUserInput where
  email : String
  first_name : String
  last_name : String
  role : Role
  department : Option String
  manager_id : Option Nat
  profile_picture : Option String
deriving DecidableEq, Repr

/-- The distinct error conditions thrown by `createUser`. -/
inductive CreateUserError where
  | emailExists
  | managerNotFound
  | managerInsufficientRole
deriving DecidableEq, Repr

/-- JavaScript truthiness of a nullable numeric id: `null` and `0` are falsy,
so an `if (input.manager_id)` guard skips its body for both. -/
def truthyId : Option Nat → Bool
  | none => false
  | some n => n != 0

/-- The real `createUser` handler: reject a duplicate email; when
`input.manager_id` is truthy (non-null and non-zero), require the manager to
exist and to have a role in `allowedManagerRoles`; then insert the user with
a fresh serial id. -/
def createUser (db : DB) (input : CreateUserInput) (now : Nat) :
    Except CreateUserError (DB × User) :=
  if db.users.any (fun u => u.email == input.email) then .error .emailExists
  else
    let newUser : User :=
      { id := freshId (db.users.map (fun v => v.id)),
        email := input.email, first_name := input.first_name,
        last_name := input.last_name, role := input.role,
        department := input.department, manager_id := input.manager_id,
        profile_picture := input.profile_picture,
        created_at := now, updated_at := now }
    let ins : Except CreateUserError (DB × User) :=
      .ok ({ db with users := db.users ++ [newUser] }, newUser)
    if truthyId input.manager_id then
      match input.manager_id with
      | none => ins
      | some mid =>
        match findUserById db mid with
        | none => .error .managerNotFound
        | some manager =>
          if manager.role ∉ allowedManagerRoles then .error .managerInsufficientRole
          else ins
    else ins

/-- `UpdateUserInput` of `schema.ts`. -/
structure UpdateUserInput where
  id : Nat
  email : Option String := none
  first_name : Option String := none
  last_name : Option String := none
  role : Option Role := none
  department : Option (Option String) := none
  manager_id : Option (Option Nat) := none
  profile_picture : Option (Option String) := none
deriving DecidableEq, Repr

/-- The distinct error conditions thrown by `updateUser`. -/
inductive UpdateUserError where
  | userNotFound
  | managerNotFound
deriving DecidableEq, Repr

/-- The update object of `updateUser` applied to a row: provided fields
replace the row's fields, `updated_at` is refreshed. -/
def applyUserPatch (u : User) (input : UpdateUserInput) (now : Nat) : User :=
  { u with
    email := input.email.getD u.email,
    first_name := input.first_name.getD u.first_name,
    last_name := input.last_name.getD u.last_name,
    role := input.role.getD u.role,
    department := input.department.getD u.department,
    manager_id := input.manager_id.getD u.manager_id,
    profile_picture := input.profile_picture.getD u.profile_picture,
    updated_at := now }

/-- The real `updateUser` handler: require the user to exist; when
`input.manager_id` is provided and non-null (`!== undefined && !== null`),
require that manager to exist; then write the provided fields.  Note the
handler never compares `input.manager_id` with `input.id`. -/
def updateUser (db : DB) (input : UpdateUserInput) (now : Nat) :
    Except UpdateUserError (DB × User) :=
  match findUserById db input.id with
  | none => .error .userNotFound
  | some existing =>
    let doUpdate : Except UpdateUserError (DB × User) :=
      .ok ({ db with
             users := db.users.map
               (fun u => if u.id == input.id then applyUserPatch u input now else u) },
           applyUserPatch existing input now)
    match input.manager_id with
    | some (some mid) =>
      match findUserById db mid with
      | none => .error .managerNotFound
      | some _ => doUpdate
    | _ => doUpdate

/-- `CreateGoalInput` of `schema.ts`. -/
structure CreateGoalInput where
  title : String
  description : String
  priority : GoalPriority
  employee_id : Nat
  manager_id : Option Nat
  due_date : Option Nat
deriving DecidableEq, Repr

/-- The distinct error conditions thrown by `createGoal`. -/
inductive CreateGoalError where
  | employeeNotFound
  | managerNotFound
deriving DecidableEq, Repr

/-- The real `createGoal` handler: require the employee to exist; when
`input.manager_id` is truthy, require the manager to exist; insert the goal
with status `Draft` and null dates. -/
def createGoal (db : DB) (input : CreateGoalInput) (now : Nat) :
    Except CreateGoalError (DB × Goal) :=
  match findUserById db input.employee_id with
  | none => .error .employeeNotFound
  | some _ =>
    let newGoal : Goal :=
      { id := freshId (db.goals.map (fun g => g.id)),
        title := input.title, description := input.description,
        status := GoalStatus.Draft, priority := input.priority,
        employee_id := input.employee_id, manager_id := input.manager_id,
        due_date := input.due_date, completed_date := none, approval_date := none,
        created_at := now, updated_at := now }
    let ins : Except CreateGoalError (DB × Goal) :=
      .ok ({ db with goals := db.goals ++ [newGoal] }, newGoal)
    if truthyId input.manager_id then
      match input.manager_id with
      | none => ins
      | some mid =>
        match findUserById db mid with
        | none => .error .managerNotFound
        | some _ => ins
    else ins

/-! ## Theory of the cycle checker -/

/-- The employee ids mentioned by the membership rows: only these nodes have
rows for the traversal to follow, so only their expansion shrinks the
unvisited frontier. -/
def employeeIdSet (edges : List TeamMembership) : Finset Nat :=
  (edges.map (fun m => m.employee_id)).toFinset

/-- The manager ids mentioned by the membership rows. -/
def managerIdList (edges : List TeamMembership) : List Nat :=
  edges.map (fun m => m.manager_id)

lemma ccrLoop_suffix (employeeId : Nat) (next : Nat → List Nat → Bool × List Nat)
    (hnext : ∀ n v, v <:+ (next n v).2) (ms : List TeamMembership)
    (visited : List Nat) : visited <:+ (ccrLoop employeeId next ms visited).2 := by
  induction ms generalizing visited with
  | nil => simp [ccrLoop]
  | cons m rest ih =>
    rw [ccrLoop]
    split
    · simp
    · simp only
      split
      · simpa using hnext m.manager_id visited
      · exact (hnext m.manager_id visited).trans (ih _)

lemma ccrGo_suffix (edges : List TeamMembership) (employeeId : Nat) :
    ∀ (fuel n : Nat) (visited : List Nat),
      visited <:+ (ccrGo edges employeeId fuel n visited).2 := by
  intro fuel
  induction fuel with
  | zero => intro n visited; simp [ccrGo]
  | succ fuel ih =>
    intro n visited
    rw [ccrGo]
    split
    · simp
    · exact (List.suffix_cons n visited).trans
        (ccrLoop_suffix employeeId (ccrGo edges employeeId fuel) ih _ _)

lemma ccrLoop_nodup (employeeId : Nat) (next : Nat → List Nat → Bool × List Nat)
    (hnext : ∀ n v, v.Nodup → (next n v).2.Nodup) (ms : List TeamMembership) :
    ∀ visited : List Nat, visited.Nodup →
      (ccrLoop employeeId next ms visited).2.Nodup := by
  induction ms with
  | nil => intro visited h; simpa [ccrLoop]
  | cons m rest ih =>
    intro visited h
    rw [ccrLoop]
    split
    · simpa
    · simp only
      split
      · simpa using hnext m.manager_id visited h
      · exact ih _ (hnext m.manager_id visited h)

lemma ccrGo_nodup (edges : List TeamMembership) (employeeId : Nat) :
    ∀ (fuel n : Nat) (visited : List Nat), visited.Nodup →
      (ccrGo edges employeeId fuel n visited).2.Nodup := by
  intro fuel
  induction fuel with
  | zero => intro n visited h; simpa [ccrGo]
  | succ fuel ih =>
    intro n visited h
    rw [ccrGo]
    split
    · simpa
    · next hmem =>
      exact ccrLoop_nodup employeeId _ (fun n' v hv => ih n' v hv) _ _
        (by simp [List.nodup_cons, hmem, h])

lemma ccrLoop_mem_bound (employeeId : Nat) (next : Nat → List Nat → Bool × List Nat)
    (M : List Nat)
    (hnext : ∀ n v x, x ∈ (next n v).2 → x = n ∨ x ∈ M ∨ x ∈ v) :
    ∀ ms : List TeamMembership, (∀ m ∈ ms, m.manager_id ∈ M) →
      ∀ (visited : List Nat) (x : Nat),
        x ∈ (ccrLoop employeeId next ms visited).2 → x ∈ M ∨ x ∈ visited := by
  intro ms
  induction ms with
  | nil => intro _ visited x hx; right; simpa [ccrLoop] using hx
  | cons m rest ih =>
    intro hms visited x hx
    rw [ccrLoop] at hx
    split at hx
    · right; simpa using hx
    · simp only at hx
      split at hx
      · simp only at hx
        rcases hnext _ _ _ hx with h | h | h
        · left; exact h ▸ hms m (List.mem_cons_self m rest)
        · left; exact h
        · right; exact h
      · rcases ih (fun m' hm' => hms m' (List.mem_cons_of_mem m hm')) _ x hx with h | h
        · left; exact h
        · rcases hnext _ _ _ h with h' | h' | h'
          · left; exact h' ▸ hms m (List.mem_cons_self m rest)
          · left; exact h'
          · right; exact h'

lemma ccrGo_mem_bound (edges : List TeamMembership) (employeeId : Nat) :
    ∀ (fuel n : Nat) (visited : List Nat) (x : Nat),
      x ∈ (ccrGo edges employeeId fuel n visited).2 →
      x = n ∨ x ∈ managerIdList edges ∨ x ∈ visited := by
  intro fuel
  induction fuel with
  | zero => intro n visited x hx; right; right; simpa [ccrGo] using hx
  | succ fuel ih =>
    intro n visited x hx
    rw [ccrGo] at hx
    split at hx
    · right; right; simpa using hx
    · have hb := ccrLoop_mem_bound employeeId _ (managerIdList edges)
        (fun n' v x' hx' => ih n' v x' hx') _
        (fun m hm => List.mem_map_of_mem (fun m => m.manager_id)
          (List.mem_of_mem_filter hm)) _ x hx
      rcases hb with h | h
      · right; left; exact h
      · rcases List.mem_cons.mp h with h' | h'
        · left; exact h'
        · right; right; exact h'

lemma ccrLoop_congr (employeeId : Nat) (next₁ next₂ : Nat → List Nat → Bool × List Nat)
    (hmono : ∀ n v, v ⊆ (next₁ n v).2) :
    ∀ (ms : List TeamMembership) (visited : List Nat),
      (∀ n v, visited ⊆ v → next₁ n v = next₂ n v) →
      ccrLoop employeeId next₁ ms visited = ccrLoop employeeId next₂ ms visited := by
  intro ms
  induction ms with
  | nil => intro visited _; simp [ccrLoop]
  | cons m rest ih =>
    intro visited hcong
    simp only [ccrLoop]
    rw [← hcong m.manager_id visited (List.Subset.refl visited)]
    by_cases hbeq : (m.manager_id == employeeId) = true
    · rw [if_pos hbeq, if_pos hbeq]
    · rw [if_neg hbeq, if_neg hbeq]
      by_cases hr : (next₁ m.manager_id visited).1 = true
      · rw [if_pos hr, if_pos hr]
      · rw [if_neg hr, if_neg hr]
        exact ih _ (fun n v hv =>
          hcong n v (fun x hx => hv (hmono m.manager_id visited hx)))

lemma ccrGo_fuel_step (edges : List TeamMembership) (employeeId : Nat) :
    ∀ (fuel n : Nat) (visited : List Nat),
      (employeeIdSet edges \ visited.toFinset).card < fuel →
      ccrGo edges employeeId (fuel + 1) n visited =
        ccrGo edges employeeId fuel n visited := by
  intro fuel
  induction fuel with
  | zero => intro n visited h; omega
  | succ fuel ih =>
    intro n visited hcard
    by_cases hmem : n ∈ visited
    · simp only [ccrGo]
      rw [if_pos hmem, if_pos hmem]
    · simp only [ccrGo]
      rw [if_neg hmem, if_neg hmem]
      by_cases hfil : edges.filter (fun m => m.employee_id == n) = []
      · rw [hfil]
        simp [ccrLoop]
      · have hnU : n ∈ employeeIdSet edges := by
          rcases List.exists_mem_of_ne_nil _ hfil with ⟨m, hm⟩
          have h1 := List.mem_filter.mp hm
          have h2 : m.employee_id = n := by simpa using h1.2
          simp only [employeeIdSet, List.mem_toFinset]
          exact h2 ▸ List.mem_map_of_mem (fun m => m.employee_id) h1.1
        apply ccrLoop_congr employeeId _ _
          (fun n' v => (ccrGo_suffix edges employeeId (fuel + 1) n' v).subset)
        intro n' v hv
        apply ih
        have hsub : employeeIdSet edges \ v.toFinset ⊆
            employeeIdSet edges \ insert n visited.toFinset := by
          apply Finset.sdiff_subset_sdiff (le_refl _)
          intro x hx
          rcases Finset.mem_insert.mp hx with h | h
          · rw [h]
            exact List.mem_toFinset.mpr (hv (List.mem_cons_self n visited))
          · exact List.mem_toFinset.mpr
              (hv (List.mem_cons_of_mem n (List.mem_toFinset.mp h)))
        have hlt : (employeeIdSet edges \ insert n visited.toFinset).card <
            (employeeIdSet edges \ visited.toFinset).card := by
          apply Finset.card_lt_card
          rw [Finset.ssubset_iff_of_subset
            (Finset.sdiff_subset_sdiff (le_refl _) (Finset.subset_insert n _))]
          refine ⟨n, Finset.mem_sdiff.mpr ⟨hnU, ?_⟩, fun hc => ?_⟩
          · exact fun hc => hmem (List.mem_toFinset.mp hc)
          · exact (Finset.mem_sdiff.mp hc).2 (Finset.mem_insert_self n _)
        have := Finset.card_le_card hsub
        omega

lemma ccrGo_stable (edges : List TeamMembership) (employeeId n : Nat) :
    ∀ fuel, (employeeIdSet edges).card < fuel →
      ccrGo edges employeeId fuel n [] =
        ccrGo edges employeeId ((employeeIdSet edges).card + 1) n [] := by
  intro fuel
  induction fuel with
  | zero => intro h; omega
  | succ fuel ih =>
    intro h
    rcases Nat.lt_or_ge (employeeIdSet edges).card fuel with h' | h'
    · rw [ccrGo_fuel_step edges employeeId fuel n [] (by simpa using h')]
      exact ih h'
    · have heq : fuel = (employeeIdSet edges).card := by omega
      rw [heq]

lemma checkCircularReporting_eq_ccrGo (edges : List TeamMembership)
    (managerId employeeId : Nat) :
    ∀ fuel, edges.length < fuel →
      (ccrGo edges employeeId fuel managerId []).1 =
        checkCircularReporting edges managerId employeeId := by
  intro fuel hf
  unfold checkCircularReporting
  have hcard : (employeeIdSet edges).card ≤ edges.length := by
    have h1 := List.toFinset_card_le (edges.map (fun m => m.employee_id))
    simpa [employeeIdSet] using h1
  rw [ccrGo_stable edges employeeId managerId fuel (by omega),
      ccrGo_stable edges employeeId managerId (edges.length + 1) (by omega)]

/-- `UpPath edges n t`: from `n`, repeatedly step to a manager of the current
node (a membership row whose `employee_id` is the current node), reaching `t`
after at least one step — i.e. `t` transitively manages `n` along
`TeamMembership` rows, so adding the row `t manages n`... adding `(n, t)` is
exactly what would close a cycle. -/
inductive UpPath (edges : List TeamMembership) : Nat → Nat → Prop where
  | base {n t : Nat} (m : TeamMembership) (hm : m ∈ edges)
      (he : m.employee_id = n) (hmgr : m.manager_id = t) : UpPath edges n t
  | step {n t : Nat} (m : TeamMembership) (hm : m ∈ edges)
      (he : m.employee_id = n) (hp : UpPath edges m.manager_id t) : UpPath edges n t

lemma ccrLoop_sound (edges : List TeamMembership) (employeeId n : Nat)
    (next : Nat → List Nat → Bool × List Nat)
    (hnext : ∀ (n' : Nat) (v : List Nat), (next n' v).1 = true →
      UpPath edges n' employeeId) :
    ∀ ms : List TeamMembership, (∀ m ∈ ms, m ∈ edges ∧ m.employee_id = n) →
      ∀ visited : List Nat, (ccrLoop employeeId next ms visited).1 = true →
        UpPath edges n employeeId := by
  intro ms
  induction ms with
  | nil => intro _ visited h; simp [ccrLoop] at h
  | cons m rest ih =>
    intro hms visited h
    rw [ccrLoop] at h
    rcases hms m (List.mem_cons_self m rest) with ⟨hmem, hemp⟩
    split at h
    · next hbeq =>
      exact UpPath.base m hmem hemp (by simpa using hbeq)
    · simp only at h
      split at h
      · next hr => exact UpPath.step m hmem hemp (hnext _ _ hr)
      · exact ih (fun m' hm' => hms m' (List.mem_cons_of_mem m hm')) _ h

lemma ccrGo_sound (edges : List TeamMembership) (employeeId : Nat) :
    ∀ (fuel n : Nat) (visited : List Nat),
      (ccrGo edges employeeId fuel n visited).1 = true →
      UpPath edges n employeeId := by
  intro fuel
  induction fuel with
  | zero => intro n visited h; simp [ccrGo] at h
  | succ fuel ih =>
    intro n visited h
    rw [ccrGo] at h
    split at h
    · simp at h
    · refine ccrLoop_sound edges employeeId n _ (fun n' v hv => ih n' v hv) _
        (fun m hm => ?_) _ h
      have h1 := List.mem_filter.mp hm
      exact ⟨h1.1, by simpa using h1.2⟩

/-- Soundness of the DFS: a `true` answer always exhibits a real manager
chain from the proposed manager up to the proposed employee. -/
lemma checkCircularReporting_sound (edges : List TeamMembership)
    (managerId employeeId : Nat)
    (h : checkCircularReporting edges managerId employeeId = true) :
    UpPath edges managerId employeeId :=
  ccrGo_sound edges employeeId (edges.length + 1) managerId [] h

/-- A node with no incoming membership row (no row lists it as employee) is
the start of no upward path. -/
lemma not_upPath_of_no_row (edges : List TeamMembership) (n t : Nat)
    (h : ∀ m ∈ edges, m.employee_id ≠ n) : ¬ UpPath edges n t := by
  intro hp
  cases hp with
  | base m hm he _ => exact h m hm he
  | step m hm he _ => exact h m hm he

/-! ## Reporting chains -/

/-- The `i`-th row of a reporting chain: `f i` manages `f (i + 1)`. -/
def chainRow (f : Nat → Nat) (i : Nat) : TeamMembership :=
  ⟨i, f i, f (i + 1), 0⟩

/-- The membership rows of a reporting chain `f 0 → f 1 → ... → f k`
(`f i` manages `f (i + 1)`). -/
def chainEdges (f : Nat → Nat) (k : Nat) : List TeamMembership :=
  (List.range k).map (chainRow f)

lemma range_filter_eq (p : Nat → Bool) :
    ∀ k j : Nat, j < k → (∀ i, i < k → (p i = true ↔ i = j)) →
      (List.range k).filter p = [j] := by
  intro k
  induction k with
  | zero => intro j hj; omega
  | succ k ih =>
    intro j hj hp
    rw [List.range_succ, List.filter_append]
    rcases Nat.lt_or_ge j k with h | h
    · rw [ih j h (fun i hi => hp i (Nat.lt_succ_of_lt hi))]
      have hk : p k = false := by
        rcases Bool.eq_false_or_eq_true (p k) with hb | hb
        · exact absurd ((hp k (Nat.lt_succ_self k)).mp hb) (by omega)
        · exact hb
      simp [hk]
    · have hjk : j = k := by omega
      subst hjk
      have hpk : p j = true := (hp j (Nat.lt_succ_self j)).mpr rfl
      have hnil : (List.range j).filter p = [] := by
        rw [List.filter_eq_nil_iff]
        intro a ha
        have ha' : a < j := List.mem_range.mp ha
        intro hpa
        exact absurd ((hp a (by omega)).mp hpa) (by omega)
      simp [hnil, hpk]

lemma chainEdges_filter (f : Nat → Nat) (k j : Nat)
    (hinj : ∀ i₁ i₂, i₁ ≤ k → i₂ ≤ k → f i₁ = f i₂ → i₁ = i₂) (hj : j < k) :
    (chainEdges f k).filter (fun m => m.employee_id == f (j + 1)) =
      [chainRow f j] := by
  unfold chainEdges
  rw [List.filter_map]
  have hfil : (List.range k).filter
      ((fun (m : TeamMembership) => m.employee_id == f (j + 1)) ∘ chainRow f)
        = [j] := by
    apply range_filter_eq _ k j hj
    intro i hi
    simp only [Function.comp, chainRow, beq_iff_eq]
    constructor
    · intro hfe
      have := hinj (i + 1) (j + 1) (by omega) (by omega) hfe
      omega
    · intro hij
      rw [hij]
  rw [hfil]
  simp

lemma chain_ccrGo (f : Nat → Nat) (k : Nat)
    (hinj : ∀ i₁ i₂, i₁ ≤ k → i₂ ≤ k → f i₁ = f i₂ → i₁ = i₂) :
    ∀ j, 1 ≤ j → j ≤ k → ∀ (fuel : Nat) (visited : List Nat), j ≤ fuel →
      (∀ i, i ≤ j → f i ∉ visited) →
      (ccrGo (chainEdges f k) (f 0) fuel (f j) visited).1 = true := by
  intro j
  induction j with
  | zero => intro h1; omega
  | succ j ih =>
    intro _ hk fuel visited hfuel hvis
    obtain ⟨fl, rfl⟩ : ∃ fl, fuel = fl + 1 := ⟨fuel - 1, by omega⟩
    rw [ccrGo]
    rw [if_neg (hvis (j + 1) (le_refl _))]
    rw [chainEdges_filter f k j hinj (by omega)]
    rw [ccrLoop]
    rw [show (chainRow f j).manager_id = f j from rfl]
    by_cases hj0 : j = 0
    · subst hj0
      simp
    · have hne : ¬ ((f j == f 0) = true) := by
        simp only [beq_iff_eq]
        intro h
        exact absurd (hinj j 0 (by omega) (by omega) h) (by omega)
      rw [if_neg hne]
      simp only
      have hr : (ccrGo (chainEdges f k) (f 0) fl (f j) (f (j + 1) :: visited)).1
          = true := by
        apply ih (by omega) (by omega) fl _ (by omega)
        intro i hi
        simp only [List.mem_cons]
        rintro (h | h)
        · exact absurd (hinj i (j + 1) (by omega) (by omega) h) (by omega)
        · exact hvis i (by omega) h
      rw [if_pos hr]

/-- Completeness on chains: on the rows of a chain with pairwise-distinct
nodes, the DFS started at the chain's last node and looking for its first
node answers `true`. -/
lemma chain_checkCircularReporting (f : Nat → Nat) (k : Nat) (hk : 1 ≤ k)
    (hinj : ∀ i₁ i₂, i₁ ≤ k → i₂ ≤ k → f i₁ = f i₂ → i₁ = i₂) :
    checkCircularReporting (chainEdges f k) (f k) (f 0) = true := by
  unfold checkCircularReporting
  apply chain_ccrGo f k hinj k hk (le_refl k)
  · have hlen : (chainEdges f k).length = k := by simp [chainEdges]
    omega
  · intro i _ h
    simp at h

lemma ccrGo_visited_guard (edges : List TeamMembership)
    (employeeId fuel managerId : Nat) (visited : List Nat)
    (h : managerId ∈ visited) :
    ccrGo edges employeeId (fuel + 1) managerId visited = (false, visited) := by
  rw [ccrGo, if_pos h]

/-! ## Claim theorems -/

/-- C9: the cycle-check traversal terminates — its answer stabilizes as soon
as the fuel exceeds the row count, so `checkCircularReporting` computes the
value of the source's unbounded recursion (first conjunct); the visited list
never acquires a duplicate, so each node is expanded at most once (second
conjunct); visited nodes are never removed (third conjunct); and revisiting
an already-visited node is not treated as a cycle: the branch merely stops,
answering `false` with the visited set unchanged (fourth conjunct).  The
checker is a pure function of the membership rows — it takes no store and
returns only the answer and its visited list — so it performs no mutation. -/
theorem C9_traversal_terminates_each_node_expanded_once :
    (∀ (edges : List TeamMembership) (employeeId managerId fuel : Nat),
      edges.length < fuel →
      (ccrGo edges employeeId fuel managerId []).1 =
        checkCircularReporting edges managerId employeeId) ∧
    (∀ (edges : List TeamMembership) (employeeId fuel managerId : Nat)
      (visited : List Nat), visited.Nodup →
      (ccrGo edges employeeId fuel managerId visited).2.Nodup) ∧
    (∀ (edges : List TeamMembership) (employeeId fuel managerId : Nat)
      (visited : List Nat),
      visited <:+ (ccrGo edges employeeId fuel managerId visited).2) ∧
    (∀ (edges : List TeamMembership) (employeeId fuel managerId : Nat)
      (visited : List Nat), managerId ∈ visited →
      ccrGo edges employeeId (fuel + 1) managerId visited = (false, visited)) := by
  refine ⟨?_, ?_, ?_, ?_⟩
  · intro edges employeeId managerId fuel hf
    exact checkCircularReporting_eq_ccrGo edges managerId employeeId fuel hf
  · intro edges employeeId fuel managerId visited h
    exact ccrGo_nodup edges employeeId fuel managerId visited h
  · intro edges employeeId fuel managerId visited
    exact ccrGo_suffix edges employeeId fuel managerId visited
  · intro edges employeeId fuel managerId visited h
    exact ccrGo_visited_guard edges employeeId fuel managerId visited h

/-- Witness for C9 at concrete inputs. -/
theorem C9_traversal_terminates_each_node_expanded_once_witness :
    ((ccrGo [⟨0, 1, 2, 0⟩] 2 5 1 []).1 = checkCircularReporting [⟨0, 1, 2, 0⟩] 1 2) ∧
    (ccrGo [⟨0, 1, 2, 0⟩] 2 5 1 [7]).2.Nodup ∧
    ([7] <:+ (ccrGo [⟨0, 1, 2, 0⟩] 2 5 1 [7]).2) ∧
    ccrGo [⟨0, 1, 2, 0⟩] 2 (4 + 1) 1 [1] = (false, [1]) :=
  ⟨C9_traversal_terminates_each_node_expanded_once.1 [⟨0, 1, 2, 0⟩] 2 1 5 (by decide),
   C9_traversal_terminates_each_node_expanded_once.2.1 [⟨0, 1, 2, 0⟩] 2 5 1 [7]
     (by decide),
   C9_traversal_terminates_each_node_expanded_once.2.2.1 [⟨0, 1, 2, 0⟩] 2 5 1 [7],
   C9_traversal_terminates_each_node_expanded_once.2.2.2 [⟨0, 1, 2, 0⟩] 2 4 1 [1]
     (by decide)⟩

/-- C8: the cycle check reads only the `TeamMembership` rows: two database
states with the same membership rows (and arbitrarily different
`User.manager_id` values) get the same answer; in particular, when there are
no membership rows at all the check never reports a cycle, no matter what
cycle the `User.manager_id` direct-report edges would form with the proposed
edge. -/
theorem C8_cycle_check_ignores_user_manager_edges :
    (∀ db₁ db₂ : DB, db₁.memberships = db₂.memberships →
      ∀ m e : Nat, wouldCreateCycle db₁ m e = wouldCreateCycle db₂ m e) ∧
    (∀ db : DB, db.memberships = [] →
      ∀ m e : Nat, wouldCreateCycle db m e = false) := by
  constructor
  · intro db₁ db₂ h m e
    unfold wouldCreateCycle
    rw [h]
  · intro db h m e
    unfold wouldCreateCycle
    rw [h]
    rfl

/-- A user record with only the fields that matter set. -/
def mkUser (id : Nat) (role : Role) (manager_id : Option Nat) : User :=
  ⟨id, toString id, "F", "L", role, none, manager_id, none, 0, 0⟩

/-- Two users whose `manager_id` direct edges say 2 manages 1 and 1 manages 2
(a direct-edge cycle), with no membership rows. -/
def dbUserEdgeCycle : DB :=
  ⟨[mkUser 1 Role.Manager (some 2), mkUser 2 Role.Manager (some 1)], [], []⟩

/-- The same (empty) membership rows, but no `manager_id` edges at all. -/
def dbNoUserEdges : DB :=
  ⟨[mkUser 1 Role.Manager none, mkUser 2 Role.Manager none], [], []⟩

/-- Witness for C8: the two stores differ exactly in their `User.manager_id`
edges (which form a cycle with the proposed edge in the first store), yet the
cycle check answers the same — and that answer is `false`. -/
theorem C8_cycle_check_ignores_user_manager_edges_witness :
    wouldCreateCycle dbUserEdgeCycle 1 2 = wouldCreateCycle dbNoUserEdges 1 2 ∧
    wouldCreateCycle dbUserEdgeCycle 1 2 = false :=
  ⟨C8_cycle_check_ignores_user_manager_edges.1 dbUserEdgeCycle dbNoUserEdges rfl 1 2,
   C8_cycle_check_ignores_user_manager_edges.2 dbUserEdgeCycle rfl 1 2⟩

/-- C1: over a store whose membership rows form a chain
`f 0 → f 1 → ... → f k` of pairwise-distinct users, with both endpoint users
present and the chain's last node holding an allowed role, the call
`createTeamMembership(manager_id = f k, employee_id = f 0)` is rejected with
the circular-reporting error; and any proposed edge that does not close a
cycle (no existing upward manager chain from its manager to its employee),
with both users present, distinct, an allowed manager role, and no duplicate
row, succeeds and appends exactly its row to the membership table. -/
theorem C1_chain_closing_edge_rejected_nonclosing_edge_persisted
    (db : DB) (f : Nat → Nat) (k now : Nat)
    (hmem : db.memberships = chainEdges f k)
    (hk : 1 ≤ k)
    (hinj : ∀ i₁ i₂, i₁ ≤ k → i₂ ≤ k → f i₁ = f i₂ → i₁ = i₂)
    (uN : User) (huN : findUserById db (f k) = some uN)
    (hroleN : uN.role ∈ allowedManagerRoles)
    (huA : (findUserById db (f 0)).isSome = true) :
    createTeamMembership db (f k) (f 0) now = .error .circularReporting ∧
    (∀ (m e : Nat) (mu : User), findUserById db m = some mu →
      (findUserById db e).isSome = true → m ≠ e →
      mu.role ∈ allowedManagerRoles →
      (∀ row ∈ db.memberships, ¬(row.manager_id = m ∧ row.employee_id = e)) →
      ¬ UpPath db.memberships m e →
      ∃ (db' : DB) (row : TeamMembership),
        createTeamMembership db m e now = .ok (db', row) ∧
        row.manager_id = m ∧ row.employee_id = e ∧
        db'.memberships = db.memberships ++ [row]) := by
  constructor
  · obtain ⟨uA, huA'⟩ := Option.isSome_iff_exists.mp huA
    have hne : f k ≠ f 0 := fun h => absurd (hinj k 0 (le_refl k) (by omega) h) (by omega)
    have hdup : ¬(db.memberships.any
        (fun m => m.manager_id == f k && m.employee_id == f 0) = true) := by
      rw [hmem]
      intro h
      rcases List.any_eq_true.mp h with ⟨row, hrow, hpq⟩
      rcases List.mem_map.mp hrow with ⟨i, hi, hieq⟩
      have hi' : i < k := List.mem_range.mp hi
      have hman : row.manager_id = f i := by rw [← hieq]; rfl
      simp only [Bool.and_eq_true] at hpq
      have hmgr : f i = f k := by
        have h1 := hpq.1
        rw [hman] at h1
        simpa using h1
      exact absurd (hinj i k (by omega) (le_refl k) hmgr) (by omega)
    have hcyc : checkCircularReporting db.memberships (f k) (f 0) = true := by
      rw [hmem]
      exact chain_checkCircularReporting f k hk hinj
    simp only [createTeamMembership, huN, huA']
    rw [if_neg hne, if_neg (not_not_intro hroleN), if_neg hdup, if_pos hcyc]
  · intro m e mu hmu hue hne hrole hdup hpath
    obtain ⟨ue, hue'⟩ := Option.isSome_iff_exists.mp hue
    have hdup' : ¬(db.memberships.any
        (fun row => row.manager_id == m && row.employee_id == e) = true) := by
      intro h
      rcases List.any_eq_true.mp h with ⟨row, hrow, hpq⟩
      simp only [Bool.and_eq_true] at hpq
      exact hdup row hrow ⟨by simpa using hpq.1, by simpa using hpq.2⟩
    have hcyc : ¬(checkCircularReporting db.memberships m e = true) :=
      fun h => hpath (checkCircularReporting_sound db.memberships m e h)
    have hrun : createTeamMembership db m e now =
        .ok ({ db with memberships := db.memberships ++
                 [⟨freshId (db.memberships.map (fun r => r.id)), m, e, now⟩] },
             ⟨freshId (db.memberships.map (fun r => r.id)), m, e, now⟩) := by
      simp only [createTeamMembership, hmu, hue']
      rw [if_neg hne, if_neg (not_not_intro hrole), if_neg hdup', if_neg hcyc]
    exact ⟨_, _, hrun, rfl, rfl, rfl⟩

/-- Store for the concrete chain scenario: users 1, 2, 3 form the chain
1 → 2 → 3 (`top → mid → leaf`), user 5 is unconnected. -/
def chainDb : DB :=
  ⟨[mkUser 1 Role.Manager none, mkUser 2 Role.Manager none,
    mkUser 3 Role.Manager none, mkUser 5 Role.Employee none],
   [],
   [⟨0, 1, 2, 0⟩, ⟨1, 2, 3, 0⟩]⟩

/-- Witness for C1: closing the 3-node chain (edge `3 → 1`) is rejected as
circular; the unconnected edge `1 → 5` succeeds and appends its row. -/
theorem C1_chain_closing_edge_rejected_nonclosing_edge_persisted_witness :
    createTeamMembership chainDb 3 1 9 = .error .circularReporting ∧
    (∃ (db' : DB) (row : TeamMembership),
      createTeamMembership chainDb 1 5 9 = .ok (db', row) ∧
      row.manager_id = 1 ∧ row.employee_id = 5 ∧
      db'.memberships = chainDb.memberships ++ [row]) := by
  have h := C1_chain_closing_edge_rejected_nonclosing_edge_persisted chainDb
    (fun i => i + 1) 2 9 (by decide) (by decide)
    (fun i₁ i₂ _ _ hf => by
      have hf' : i₁ + 1 = i₂ + 1 := hf
      omega)
    (mkUser 3 Role.Manager none) (by decide) (by decide) (by decide)
  exact ⟨h.1, h.2 1 5 (mkUser 1 Role.Manager none) (by decide) (by decide)
    (by decide) (by decide) (by decide)
    (not_upPath_of_no_row chainDb.memberships 1 5 (by decide))⟩

/-! ## approveGoal -/

/-- Whether an `Except` result is a success. -/
def isOk {ε α : Type} : Except ε α → Bool
  | .ok _ => true
  | .error _ => false

/-- The store left behind by a call to `approveGoal`: the updated store on
success, the untouched store on error — the source throws before its single
update statement, so a failed precondition writes nothing. -/
def runApproveGoal (db : DB) (goalId managerId now : Nat) : DB :=
  match approveGoal db goalId managerId now with
  | .ok (db', _) => db'
  | .error _ => db

lemma approveGoal_ok_shape (db : DB) (goalId managerId now : Nat)
    (g : Goal) (hg : findGoalById db goalId = some g)
    (db' : DB) (g' : Goal)
    (h : approveGoal db goalId managerId now = .ok (db', g')) :
    g' = applyApproval g managerId now ∧
    db' = updateGoalRows db goalId (fun x => applyApproval x managerId now) ∧
    g.status = GoalStatus.Pending_Approval := by
  simp only [approveGoal, hg] at h
  split at h
  · exact absurd h (by simp)
  · next hstat =>
    have hpend : g.status = GoalStatus.Pending_Approval := not_not.mp hstat
    split at h
    · exact absurd h (by simp)
    · split at h
      · exact absurd h (by simp)
      · split at h
        · have h2 := Except.ok.inj h
          exact ⟨(congrArg Prod.snd h2).symm, (congrArg Prod.fst h2).symm, hpend⟩
        · split at h
          · exact absurd h (by simp)
          · split at h
            · exact absurd h (by simp)
            · have h2 := Except.ok.inj h
              exact ⟨(congrArg Prod.snd h2).symm, (congrArg Prod.fst h2).symm, hpend⟩

/-- C2: for a pending goal, an existing acting user with an allowed role, and
an existing goal employee, approval succeeds exactly when the user is the
goal's assigned manager, or holds an admin role, or is the employee's direct
manager via `User.manager_id`; otherwise it fails with the
no-permission (Forbidden) error. -/
theorem C2_authorization_matrix (db : DB) (gid uid now : Nat) (g : Goal)
    (u emp : User)
    (hg : findGoalById db gid = some g)
    (hpend : g.status = GoalStatus.Pending_Approval)
    (hu : findUserById db uid = some u)
    (hrole : u.role ∈ allowedManagerRoles)
    (hemp : findUserById db g.employee_id = some emp) :
    (isOk (approveGoal db gid uid now) = true ↔
      (g.manager_id = some uid ∨ u.role = Role.HR_Admin ∨
       u.role = Role.System_Admin ∨ emp.manager_id = some uid)) ∧
    (¬(g.manager_id = some uid ∨ u.role = Role.HR_Admin ∨
       u.role = Role.System_Admin ∨ emp.manager_id = some uid) →
      approveGoal db gid uid now = .error .noPermission) := by
  have hrun : approveGoal db gid uid now =
      (if g.manager_id = some uid ∨ u.role = Role.HR_Admin ∨
          u.role = Role.System_Admin then
        .ok (updateGoalRows db gid (fun x => applyApproval x uid now),
             applyApproval g uid now)
      else if emp.manager_id ≠ some uid then .error .noPermission
      else .ok (updateGoalRows db gid (fun x => applyApproval x uid now),
                applyApproval g uid now)) := by
    simp only [approveGoal, hg, hu, hemp]
    rw [if_neg (not_not_intro hpend), if_neg (not_not_intro hrole)]
  rw [hrun]
  by_cases hca : g.manager_id = some uid ∨ u.role = Role.HR_Admin ∨
      u.role = Role.System_Admin
  · rw [if_pos hca]
    constructor
    · constructor
      · intro _
        rcases hca with h | h | h
        · exact Or.inl h
        · exact Or.inr (Or.inl h)
        · exact Or.inr (Or.inr (Or.inl h))
      · intro _; rfl
    · intro hn
      exact absurd (by tauto) hn
  · rw [if_neg hca]
    by_cases hm : emp.manager_id = some uid
    · rw [if_neg (not_not_intro hm)]
      constructor
      · exact ⟨fun _ => Or.inr (Or.inr (Or.inr hm)), fun _ => rfl⟩
      · intro hn
        exact absurd (Or.inr (Or.inr (Or.inr hm))) hn
    · rw [if_pos hm]
      constructor
      · constructor
        · intro hfalse; exact absurd hfalse (by simp [isOk])
        · intro hp
          rcases hp with h | h | h | h
          · exact absurd (Or.inl h) hca
          · exact absurd (Or.inr (Or.inl h)) hca
          · exact absurd (Or.inr (Or.inr h)) hca
          · exact absurd h hm
      · intro _; rfl

/-- C3: a successful approval returns the pre-approval goal with exactly
`status`, `manager_id`, `approval_date`, `updated_at` rewritten:
`status = Approved`, `manager_id` is the acting user, both dates are set to
the time of the call (hence at-or-after it), and every other field is
unchanged. -/
theorem C3_success_frame (db : DB) (gid uid now : Nat) (g : Goal)
    (hg : findGoalById db gid = some g) (db' : DB) (g' : Goal)
    (h : approveGoal db gid uid now = .ok (db', g')) :
    g'.status = GoalStatus.Approved ∧ g'.manager_id = some uid ∧
    g'.approval_date = some now ∧ g'.updated_at = now ∧
    g'.id = g.id ∧ g'.title = g.title ∧ g'.description = g.description ∧
    g'.priority = g.priority ∧ g'.employee_id = g.employee_id ∧
    g'.due_date = g.due_date ∧ g'.completed_date = g.completed_date ∧
    g'.created_at = g.created_at := by
  obtain ⟨hgo, -, -⟩ := approveGoal_ok_shape db gid uid now g hg db' g' h
  rw [hgo]
  exact ⟨rfl, rfl, rfl, rfl, rfl, rfl, rfl, rfl, rfl, rfl, rfl, rfl⟩

/-- C4: the preconditions of `approveGoal` are checked in source order — goal
exists, goal pending, acting user exists, acting user's role allowed — the
first failure determines the error (including the final authorization check,
whose failure is the no-permission Forbidden error), and every error leaves
the store untouched; in particular a goal in any non-pending status is always rejected
with the invalid-state error carrying that status, for every acting user,
with no write. -/
theorem C4_precondition_order_and_no_write :
    (∀ (db : DB) (gid uid now : Nat), findGoalById db gid = none →
      approveGoal db gid uid now = .error .goalNotFound) ∧
    (∀ (db : DB) (gid uid now : Nat) (g : Goal), findGoalById db gid = some g →
      g.status ≠ GoalStatus.Pending_Approval →
      approveGoal db gid uid now = .error (.notPendingApproval g.status) ∧
      runApproveGoal db gid uid now = db) ∧
    (∀ (db : DB) (gid uid now : Nat) (g : Goal), findGoalById db gid = some g →
      g.status = GoalStatus.Pending_Approval → findUserById db uid = none →
      approveGoal db gid uid now = .error .managerNotFound) ∧
    (∀ (db : DB) (gid uid now : Nat) (g : Goal) (u : User),
      findGoalById db gid = some g → g.status = GoalStatus.Pending_Approval →
      findUserById db uid = some u → u.role ∉ allowedManagerRoles →
      approveGoal db gid uid now = .error .insufficientRole) ∧
    (∀ (db : DB) (gid uid now : Nat) (g : Goal) (u emp : User),
      findGoalById db gid = some g → g.status = GoalStatus.Pending_Approval →
      findUserById db uid = some u → u.role ∈ allowedManagerRoles →
      ¬(g.manager_id = some uid ∨ u.role = Role.HR_Admin ∨
        u.role = Role.System_Admin) →
      findUserById db g.employee_id = some emp → emp.manager_id ≠ some uid →
      approveGoal db gid uid now = .error .noPermission) ∧
    (∀ (db : DB) (gid uid now : Nat) (e : ApproveError),
      approveGoal db gid uid now = .error e → runApproveGoal db gid uid now = db) := by
  refine ⟨?_, ?_, ?_, ?_, ?_, ?_⟩
  · intro db gid uid now h
    simp only [approveGoal, h]
  · intro db gid uid now g hg hs
    have h1 : approveGoal db gid uid now = .error (.notPendingApproval g.status) := by
      simp only [approveGoal, hg]
      rw [if_pos hs]
    exact ⟨h1, by unfold runApproveGoal; rw [h1]⟩
  · intro db gid uid now g hg hs hu
    simp only [approveGoal, hg, hu]
    rw [if_neg (not_not_intro hs)]
  · intro db gid uid now g u hg hs hu hr
    simp only [approveGoal, hg, hu]
    rw [if_neg (not_not_intro hs), if_pos hr]
  · intro db gid uid now g u emp hg hs hu hr hca hemp hm
    simp only [approveGoal, hg, hu, hemp]
    rw [if_neg (not_not_intro hs), if_neg (not_not_intro hr), if_neg hca,
      if_pos hm]
  · intro db gid uid now e h
    unfold runApproveGoal
    rw [h]

/-- C10: with a pending goal, an existing allowed-role acting user who is
neither the assigned manager nor an admin, and a dangling `employee_id`, the
handler fails with the employee-not-found error — a case absent from the
spec's precondition list — and writes nothing. -/
theorem C10_dangling_employee_error (db : DB) (gid uid now : Nat) (g : Goal)
    (u : User)
    (hg : findGoalById db gid = some g)
    (hpend : g.status = GoalStatus.Pending_Approval)
    (hu : findUserById db uid = some u)
    (hrole : u.role ∈ allowedManagerRoles)
    (hnca : ¬(g.manager_id = some uid ∨ u.role = Role.HR_Admin ∨
      u.role = Role.System_Admin))
    (hemp : findUserById db g.employee_id = none) :
    approveGoal db gid uid now = .error .employeeNotFound ∧
    runApproveGoal db gid uid now = db := by
  have h1 : approveGoal db gid uid now = .error .employeeNotFound := by
    simp only [approveGoal, hg, hu, hemp]
    rw [if_neg (not_not_intro hpend), if_neg (not_not_intro hrole), if_neg hnca]
  exact ⟨h1, by unfold runApproveGoal; rw [h1]⟩

/-- A goal record with only the fields that matter set. -/
def mkGoal (id : Nat) (status : GoalStatus) (eid : Nat) (mid : Option Nat) : Goal :=
  ⟨id, "t", "d", status, GoalPriority.Medium, eid, mid, none, none, none, 0, 0⟩

/-- Store for the approval scenarios: employee 1 (direct manager 2),
manager 2, HR admin 3, unrelated manager 4; goal 10 pending for employee 1
assigned to manager 2, goal 11 in `Draft`, goal 12 pending with a dangling
`employee_id = 9`. -/
def goalDb : DB :=
  ⟨[mkUser 1 Role.Employee (some 2), mkUser 2 Role.Manager none,
    mkUser 3 Role.HR_Admin none, mkUser 4 Role.Manager none],
   [mkGoal 10 GoalStatus.Pending_Approval 1 (some 2),
    mkGoal 11 GoalStatus.Draft 1 (some 2),
    mkGoal 12 GoalStatus.Pending_Approval 9 (some 2)],
   []⟩

/-- Witness for C2: the assigned manager may approve, the unrelated manager
may not. -/
theorem C2_authorization_matrix_witness :
    isOk (approveGoal goalDb 10 2 5) = true ∧
    approveGoal goalDb 10 4 5 = .error .noPermission :=
  ⟨(C2_authorization_matrix goalDb 10 2 5
      (mkGoal 10 GoalStatus.Pending_Approval 1 (some 2))
      (mkUser 2 Role.Manager none) (mkUser 1 Role.Employee (some 2))
      (by decide) (by decide) (by decide) (by decide) (by decide)).1.mpr
      (Or.inl (by decide)),
   (C2_authorization_matrix goalDb 10 4 5
      (mkGoal 10 GoalStatus.Pending_Approval 1 (some 2))
      (mkUser 4 Role.Manager none) (mkUser 1 Role.Employee (some 2))
      (by decide) (by decide) (by decide) (by decide) (by decide)).2
      (by decide)⟩

/-- The store after manager 2 approves goal 10 at time 5. -/
def goalDbApproved : DB :=
  updateGoalRows goalDb 10 (fun g => applyApproval g 2 5)

/-- Goal 10 after manager 2 approves it at time 5. -/
def approvedGoal10 : Goal :=
  applyApproval (mkGoal 10 GoalStatus.Pending_Approval 1 (some 2)) 2 5

/-- Witness for C3 at the concrete approval of goal 10 by manager 2. -/
theorem C3_success_frame_witness :
    approvedGoal10.status = GoalStatus.Approved ∧
    approvedGoal10.manager_id = some 2 ∧
    approvedGoal10.approval_date = some 5 ∧
    approvedGoal10.updated_at = 5 ∧
    approvedGoal10.id = (mkGoal 10 GoalStatus.Pending_Approval 1 (some 2)).id ∧
    approvedGoal10.title = (mkGoal 10 GoalStatus.Pending_Approval 1 (some 2)).title ∧
    approvedGoal10.description =
      (mkGoal 10 GoalStatus.Pending_Approval 1 (some 2)).description ∧
    approvedGoal10.priority =
      (mkGoal 10 GoalStatus.Pending_Approval 1 (some 2)).priority ∧
    approvedGoal10.employee_id =
      (mkGoal 10 GoalStatus.Pending_Approval 1 (some 2)).employee_id ∧
    approvedGoal10.due_date =
      (mkGoal 10 GoalStatus.Pending_Approval 1 (some 2)).due_date ∧
    approvedGoal10.completed_date =
      (mkGoal 10 GoalStatus.Pending_Approval 1 (some 2)).completed_date ∧
    approvedGoal10.created_at =
      (mkGoal 10 GoalStatus.Pending_Approval 1 (some 2)).created_at :=
  C3_success_frame goalDb 10 2 5 (mkGoal 10 GoalStatus.Pending_Approval 1 (some 2))
    (by decide) goalDbApproved approvedGoal10 rfl

/-- Witness for C4 at concrete inputs: missing goal, draft goal (with no
write), missing acting user, acting user with the `Employee` role, and the
no-write propagation of an error result. -/
theorem C4_precondition_order_and_no_write_witness :
    approveGoal goalDb 99 2 5 = .error .goalNotFound ∧
    (approveGoal goalDb 11 2 5 = .error (.notPendingApproval GoalStatus.Draft) ∧
      runApproveGoal goalDb 11 2 5 = goalDb) ∧
    approveGoal goalDb 10 99 5 = .error .managerNotFound ∧
    approveGoal goalDb 10 1 5 = .error .insufficientRole ∧
    approveGoal goalDb 10 4 5 = .error .noPermission ∧
    runApproveGoal goalDb 99 2 5 = goalDb :=
  ⟨C4_precondition_order_and_no_write.1 goalDb 99 2 5 (by decide),
   C4_precondition_order_and_no_write.2.1 goalDb 11 2 5
     (mkGoal 11 GoalStatus.Draft 1 (some 2)) (by decide) (by decide),
   C4_precondition_order_and_no_write.2.2.1 goalDb 10 99 5
     (mkGoal 10 GoalStatus.Pending_Approval 1 (some 2)) (by decide) (by decide)
     (by decide),
   C4_precondition_order_and_no_write.2.2.2.1 goalDb 10 1 5
     (mkGoal 10 GoalStatus.Pending_Approval 1 (some 2))
     (mkUser 1 Role.Employee (some 2)) (by decide) (by decide) (by decide)
     (by decide),
   C4_precondition_order_and_no_write.2.2.2.2.1 goalDb 10 4 5
     (mkGoal 10 GoalStatus.Pending_Approval 1 (some 2))
     (mkUser 4 Role.Manager none) (mkUser 1 Role.Employee (some 2))
     (by decide) (by decide) (by decide) (by decide) (by decide) (by decide)
     (by decide),
   C4_precondition_order_and_no_write.2.2.2.2.2 goalDb 99 2 5 .goalNotFound
     (C4_precondition_order_and_no_write.1 goalDb 99 2 5 (by decide))⟩

/-- Witness for C10: manager 4 (allowed role, not assigned, not admin) tries
to approve goal 12, whose `employee_id = 9` matches no user. -/
theorem C10_dangling_employee_error_witness :
    approveGoal goalDb 12 4 5 = .error .employeeNotFound ∧
    runApproveGoal goalDb 12 4 5 = goalDb :=
  C10_dangling_employee_error goalDb 12 4 5
    (mkGoal 12 GoalStatus.Pending_Approval 9 (some 2)) (mkUser 4 Role.Manager none)
    (by decide) (by decide) (by decide) (by decide) (by decide) (by decide)

/-! ## updateGoal patch projections -/

lemma statusPatch_status (c : Goal) (p : GoalPatch) (s : GoalStatus) (now : Nat) :
    (statusPatch c p s now).status = some s := by
  unfold statusPatch
  split_ifs <;> rfl

lemma statusPatch_updated_at (c : Goal) (p : GoalPatch) (s : GoalStatus) (now : Nat) :
    (statusPatch c p s now).updated_at = p.updated_at := by
  unfold statusPatch
  split_ifs <;> rfl

lemma statusPatch_approval_date (c : Goal) (p : GoalPatch) (s : GoalStatus)
    (now : Nat) :
    (statusPatch c p s now).approval_date =
      if s = GoalStatus.Approved ∧ c.status ≠ GoalStatus.Approved then
        some (some now)
      else p.approval_date := by
  unfold statusPatch
  split_ifs <;> rfl

lemma statusPatch_completed_date (c : Goal) (p : GoalPatch) (s : GoalStatus)
    (now : Nat) :
    (statusPatch c p s now).completed_date =
      if s = GoalStatus.Completed ∧ c.status ≠ GoalStatus.Completed then
        some (some now)
      else if s ≠ GoalStatus.Completed ∧ c.status = GoalStatus.Completed then
        some none
      else p.completed_date := by
  unfold statusPatch
  split_ifs <;> first | rfl | tauto

lemma patchTitle_projs (p : GoalPatch) (t : Option String) :
    (patchTitle p t).status = p.status ∧
    (patchTitle p t).completed_date = p.completed_date ∧
    (patchTitle p t).approval_date = p.approval_date ∧
    (patchTitle p t).updated_at = p.updated_at := by
  cases t <;> exact ⟨rfl, rfl, rfl, rfl⟩

lemma patchDescription_projs (p : GoalPatch) (d : Option String) :
    (patchDescription p d).status = p.status ∧
    (patchDescription p d).completed_date = p.completed_date ∧
    (patchDescription p d).approval_date = p.approval_date ∧
    (patchDescription p d).updated_at = p.updated_at := by
  cases d <;> exact ⟨rfl, rfl, rfl, rfl⟩

lemma patchPriority_projs (p : GoalPatch) (pr : Option GoalPriority) :
    (patchPriority p pr).status = p.status ∧
    (patchPriority p pr).completed_date = p.completed_date ∧
    (patchPriority p pr).approval_date = p.approval_date ∧
    (patchPriority p pr).updated_at = p.updated_at := by
  cases pr <;> exact ⟨rfl, rfl, rfl, rfl⟩

lemma patchManagerId_projs (p : GoalPatch) (m : Option (Option Nat)) :
    (patchManagerId p m).status = p.status ∧
    (patchManagerId p m).completed_date = p.completed_date ∧
    (patchManagerId p m).approval_date = p.approval_date ∧
    (patchManagerId p m).updated_at = p.updated_at := by
  cases m <;> exact ⟨rfl, rfl, rfl, rfl⟩

lemma patchDueDate_projs (p : GoalPatch) (d : Option (Option Nat)) :
    (patchDueDate p d).status = p.status ∧
    (patchDueDate p d).completed_date = p.completed_date ∧
    (patchDueDate p d).approval_date = p.approval_date ∧
    (patchDueDate p d).updated_at = p.updated_at := by
  cases d <;> exact ⟨rfl, rfl, rfl, rfl⟩

lemma patchCompletedDate_projs (p : GoalPatch) (c : Option (Option Nat)) :
    (patchCompletedDate p c).status = p.status ∧
    (patchCompletedDate p c).approval_date = p.approval_date ∧
    (patchCompletedDate p c).updated_at = p.updated_at := by
  cases c <;> exact ⟨rfl, rfl, rfl⟩

lemma patchCompletedDate_completed (p : GoalPatch) (c : Option (Option Nat)) :
    (patchCompletedDate p c).completed_date =
      match c with
      | none => p.completed_date
      | some cd => some cd := by
  cases c <;> rfl

lemma patchApprovalDate_projs (p : GoalPatch) (a : Option (Option Nat)) :
    (patchApprovalDate p a).status = p.status ∧
    (patchApprovalDate p a).completed_date = p.completed_date ∧
    (patchApprovalDate p a).updated_at = p.updated_at := by
  cases a <;> exact ⟨rfl, rfl, rfl⟩

lemma patchApprovalDate_approval (p : GoalPatch) (a : Option (Option Nat)) :
    (patchApprovalDate p a).approval_date =
      match a with
      | none => p.approval_date
      | some ad => some ad := by
  cases a <;> rfl

lemma patchStatus_status (c : Goal) (p : GoalPatch) (now : Nat)
    (st : Option GoalStatus) :
    (patchStatus c p now st).status =
      match st with
      | none => p.status
      | some s => some s := by
  cases st with
  | none => rfl
  | some s => exact statusPatch_status c p s now

lemma patchStatus_updated_at (c : Goal) (p : GoalPatch) (now : Nat)
    (st : Option GoalStatus) :
    (patchStatus c p now st).updated_at = p.updated_at := by
  cases st with
  | none => rfl
  | some s => exact statusPatch_updated_at c p s now

lemma patchStatus_approval_date (c : Goal) (p : GoalPatch) (now : Nat)
    (st : Option GoalStatus) :
    (patchStatus c p now st).approval_date =
      match st with
      | none => p.approval_date
      | some s =>
        if s = GoalStatus.Approved ∧ c.status ≠ GoalStatus.Approved then
          some (some now)
        else p.approval_date := by
  cases st with
  | none => rfl
  | some s => exact statusPatch_approval_date c p s now

lemma patchStatus_completed_date (c : Goal) (p : GoalPatch) (now : Nat)
    (st : Option GoalStatus) :
    (patchStatus c p now st).completed_date =
      match st with
      | none => p.completed_date
      | some s =>
        if s = GoalStatus.Completed ∧ c.status ≠ GoalStatus.Completed then
          some (some now)
        else if s ≠ GoalStatus.Completed ∧ c.status = GoalStatus.Completed then
          some none
        else p.completed_date := by
  cases st with
  | none => rfl
  | some s => exact statusPatch_completed_date c p s now

lemma updateGoalPatch_status (c : Goal) (i : UpdateGoalInput) (now : Nat) :
    (updateGoalPatch c i now).status =
      match i.status with
      | none => none
      | some s => some s := by
  unfold updateGoalPatch
  rw [(patchApprovalDate_projs _ i.approval_date).1,
      (patchCompletedDate_projs _ i.completed_date).1,
      (patchDueDate_projs _ i.due_date).1,
      (patchManagerId_projs _ i.manager_id).1,
      (patchPriority_projs _ i.priority).1,
      (patchDescription_projs _ i.description).1,
      (patchTitle_projs _ i.title).1,
      patchStatus_status]

lemma updateGoalPatch_updated_at (c : Goal) (i : UpdateGoalInput) (now : Nat) :
    (updateGoalPatch c i now).updated_at = some now := by
  unfold updateGoalPatch
  rw [(patchApprovalDate_projs _ i.approval_date).2.2,
      (patchCompletedDate_projs _ i.completed_date).2.2,
      (patchDueDate_projs _ i.due_date).2.2.2,
      (patchManagerId_projs _ i.manager_id).2.2.2,
      (patchPriority_projs _ i.priority).2.2.2,
      (patchDescription_projs _ i.description).2.2.2,
      (patchTitle_projs _ i.title).2.2.2,
      patchStatus_updated_at]

lemma updateGoalPatch_approval_date (c : Goal) (i : UpdateGoalInput) (now : Nat) :
    (updateGoalPatch c i now).approval_date =
      match i.approval_date with
      | some ad => some ad
      | none =>
        match i.status with
        | none => none
        | some s =>
          if s = GoalStatus.Approved ∧ c.status ≠ GoalStatus.Approved then
            some (some now)
          else none := by
  unfold updateGoalPatch
  rw [patchApprovalDate_approval]
  cases i.approval_date with
  | some a => rfl
  | none =>
    simp only
    rw [(patchCompletedDate_projs _ i.completed_date).2.1,
        (patchDueDate_projs _ i.due_date).2.2.1,
        (patchManagerId_projs _ i.manager_id).2.2.1,
        (patchPriority_projs _ i.priority).2.2.1,
        (patchDescription_projs _ i.description).2.2.1,
        (patchTitle_projs _ i.title).2.2.1,
        patchStatus_approval_date]

lemma updateGoalPatch_completed_date (c : Goal) (i : UpdateGoalInput) (now : Nat) :
    (updateGoalPatch c i now).completed_date =
      match i.completed_date with
      | some cd => some cd
      | none =>
        match i.status with
        | none => none
        | some s =>
          if s = GoalStatus.Completed ∧ c.status ≠ GoalStatus.Completed then
            some (some now)
          else if s ≠ GoalStatus.Completed ∧ c.status = GoalStatus.Completed then
            some none
          else none := by
  unfold updateGoalPatch
  rw [(patchApprovalDate_projs _ i.approval_date).2.1,
      patchCompletedDate_completed]
  cases i.completed_date with
  | some cd => rfl
  | none =>
    simp only
    rw [(patchDueDate_projs _ i.due_date).2.1,
        (patchManagerId_projs _ i.manager_id).2.1,
        (patchPriority_projs _ i.priority).2.1,
        (patchDescription_projs _ i.description).2.1,
        (patchTitle_projs _ i.title).2.1,
        patchStatus_completed_date]

lemma updateGoal_ok_shape (db : DB) (input : UpdateGoalInput) (now : Nat)
    (current : Goal) (hg : findGoalById db input.id = some current)
    (db' : DB) (g' : Goal) (h : updateGoal db input now = .ok (db', g')) :
    g' = applyGoalPatch current (updateGoalPatch current input now) ∧
    db' = updateGoalRows db input.id
      (fun g => applyGoalPatch g (updateGoalPatch current input now)) := by
  simp only [updateGoal, hg] at h
  have h2 := Except.ok.inj h
  exact ⟨(congrArg Prod.snd h2).symm, (congrArg Prod.fst h2).symm⟩

/-- C5 (amended): `approveGoal` transitions a goal to `Approved` only from
`Pending_Approval` (any success implies the pre-state was pending), but
`updateGoal` performs no transition validation: whenever the goal exists and
a status is provided, the update succeeds and installs exactly the requested
status — including `Approved` — regardless of the previous status. -/
theorem C5_amended_pending_guard :
    (∀ (db : DB) (gid uid now : Nat) (g : Goal) (db' : DB) (g' : Goal),
      findGoalById db gid = some g → approveGoal db gid uid now = .ok (db', g') →
      g.status = GoalStatus.Pending_Approval) ∧
    (∀ (db : DB) (input : UpdateGoalInput) (now : Nat) (current : Goal)
      (s : GoalStatus),
      findGoalById db input.id = some current → input.status = some s →
      ∃ (db' : DB) (g' : Goal), updateGoal db input now = .ok (db', g') ∧
        g'.status = s) := by
  constructor
  · intro db gid uid now g db' g' hg h
    exact (approveGoal_ok_shape db gid uid now g hg db' g' h).2.2
  · intro db input now current s hg hs
    refine ⟨updateGoalRows db input.id
        (fun g => applyGoalPatch g (updateGoalPatch current input now)),
      applyGoalPatch current (updateGoalPatch current input now), ?_, ?_⟩
    · simp only [updateGoal, hg]
    · have hproj : (applyGoalPatch current (updateGoalPatch current input now)).status
          = (updateGoalPatch current input now).status.getD current.status := rfl
      rw [hproj, updateGoalPatch_status, hs]
      rfl

/-- Store for the status-transition counterexample: a `Draft` goal. -/
def c5Db : DB :=
  ⟨[mkUser 1 Role.Employee none], [mkGoal 20 GoalStatus.Draft 1 none], []⟩

/-- `updateGoal` input that jumps a `Draft` goal straight to `Approved`. -/
def c5Input : UpdateGoalInput := { id := 20, status := some GoalStatus.Approved }

/-- Goal 20 after the draft-to-approved jump. -/
def c5GoalAfter : Goal :=
  applyGoalPatch (mkGoal 20 GoalStatus.Draft 1 none)
    (updateGoalPatch (mkGoal 20 GoalStatus.Draft 1 none) c5Input 7)

/-- The store after the draft-to-approved jump. -/
def c5DbAfter : DB :=
  updateGoalRows c5Db 20
    (fun g => applyGoalPatch g
      (updateGoalPatch (mkGoal 20 GoalStatus.Draft 1 none) c5Input 7))

/-- Counterexample to C5 as stated: `updateGoal` moves goal 20 from `Draft`
(not `Pending_Approval`) directly to `Approved`, succeeding. -/
theorem C5_counterexample_draft_to_approved :
    findGoalById c5Db 20 = some (mkGoal 20 GoalStatus.Draft 1 none) ∧
    (mkGoal 20 GoalStatus.Draft 1 none).status = GoalStatus.Draft ∧
    GoalStatus.Draft ≠ GoalStatus.Pending_Approval ∧
    updateGoal c5Db c5Input 7 = .ok (c5DbAfter, c5GoalAfter) ∧
    c5GoalAfter.status = GoalStatus.Approved :=
  ⟨rfl, rfl, by decide, rfl, rfl⟩

/-- Witness for the amended C5 at concrete inputs. -/
theorem C5_amended_pending_guard_witness :
    (mkGoal 10 GoalStatus.Pending_Approval 1 (some 2)).status =
      GoalStatus.Pending_Approval ∧
    (∃ (db' : DB) (g' : Goal), updateGoal c5Db c5Input 7 = .ok (db', g') ∧
      g'.status = GoalStatus.Approved) :=
  ⟨C5_amended_pending_guard.1 goalDb 10 2 5
     (mkGoal 10 GoalStatus.Pending_Approval 1 (some 2)) goalDbApproved
     approvedGoal10 (by decide) rfl,
   C5_amended_pending_guard.2 c5Db c5Input 7 (mkGoal 20 GoalStatus.Draft 1 none)
     GoalStatus.Approved (by decide) rfl⟩

/-- C6 (amended): on a successful `updateGoal` with no manual date override,
a status change away from `Completed` clears `completed_date`, a status
change into `Approved` from any non-`Approved` status (first approval or
not) sets `approval_date` to the current time, and when no status is
provided both dates are unchanged.  (As stated the claim is false: the code
re-stamps `approval_date` on every entry into `Approved`, not only the
first, and a manual override beats the automatic clearing — see the
counterexample.) -/
theorem C6_amended_date_management (db : DB) (input : UpdateGoalInput)
    (now : Nat) (current : Goal) (db' : DB) (g' : Goal)
    (hg : findGoalById db input.id = some current)
    (h : updateGoal db input now = .ok (db', g')) :
    (∀ s, input.status = some s → s ≠ GoalStatus.Completed →
      current.status = GoalStatus.Completed → input.completed_date = none →
      g'.completed_date = none) ∧
    (input.status = some GoalStatus.Approved →
      current.status ≠ GoalStatus.Approved → input.approval_date = none →
      g'.approval_date = some now) ∧
    (input.status = none → input.completed_date = none →
      g'.completed_date = current.completed_date) ∧
    (input.status = none → input.approval_date = none →
      g'.approval_date = current.approval_date) := by
  obtain ⟨hgo, -⟩ := updateGoal_ok_shape db input now current hg db' g' h
  subst hgo
  have hcd : (applyGoalPatch current (updateGoalPatch current input now)).completed_date
      = (updateGoalPatch current input now).completed_date.getD
          current.completed_date := rfl
  have had : (applyGoalPatch current (updateGoalPatch current input now)).approval_date
      = (updateGoalPatch current input now).approval_date.getD
          current.approval_date := rfl
  refine ⟨?_, ?_, ?_, ?_⟩
  · intro s hs hsc hcc hnone
    rw [hcd, updateGoalPatch_completed_date, hnone, hs]
    show (if s = GoalStatus.Completed ∧ current.status ≠ GoalStatus.Completed then
        some (some now)
      else if s ≠ GoalStatus.Completed ∧ current.status = GoalStatus.Completed then
        some none
      else none).getD current.completed_date = none
    rw [if_neg (fun hh => hsc hh.1), if_pos ⟨hsc, hcc⟩]
    rfl
  · intro hs hca hnone
    rw [had, updateGoalPatch_approval_date, hnone, hs]
    show (if GoalStatus.Approved = GoalStatus.Approved ∧
        current.status ≠ GoalStatus.Approved then some (some now)
      else none).getD current.approval_date = some now
    rw [if_pos ⟨rfl, hca⟩]
    rfl
  · intro hs hnone
    rw [hcd, updateGoalPatch_completed_date, hnone, hs]
    rfl
  · intro hs hnone
    rw [had, updateGoalPatch_approval_date, hnone, hs]
    rfl

/-- Goal 30: `In_Progress`, previously approved (`approval_date = some 5`). -/
def c6GoalA : Goal :=
  ⟨30, "t", "d", GoalStatus.In_Progress, GoalPriority.Medium, 1, none, none,
   none, some 5, 0, 0⟩

/-- Goal 31: `Completed` with `completed_date = some 3`. -/
def c6GoalB : Goal :=
  ⟨31, "t", "d", GoalStatus.Completed, GoalPriority.Medium, 1, none, none,
   some 3, none, 0, 0⟩

/-- Store for the date-management counterexamples. -/
def c6Db : DB := ⟨[], [c6GoalA, c6GoalB], []⟩

/-- Counterexample to C6 as stated: re-approving goal 30 (which already has
`approval_date = some 5`, so this is not its first approval) re-stamps
`approval_date` to the current time 10; and leaving `Completed` with a
manual `completed_date` override yields the override, not `null`. -/
theorem C6_counterexample_restamp_and_override :
    c6GoalA.status = GoalStatus.In_Progress ∧
    c6GoalA.approval_date = some 5 ∧
    (updateGoal c6Db { id := 30, status := some GoalStatus.Approved } 10).toOption.map
      (fun r => r.2.approval_date) = some (some 10) ∧
    some (10 : Nat) ≠ some (5 : Nat) ∧
    c6GoalB.status = GoalStatus.Completed ∧
    (updateGoal c6Db
      { id := 31, status := some GoalStatus.In_Progress,
        completed_date := some (some 99) } 10).toOption.map
      (fun r => r.2.completed_date) = some (some 99) ∧
    (some (99 : Nat) : Option Nat) ≠ none :=
  ⟨rfl, rfl, rfl, by decide, rfl, rfl, by decide⟩

/-- Witness for the amended C6 at concrete inputs. -/
theorem C6_amended_date_management_witness :
    (applyGoalPatch c6GoalB
      (updateGoalPatch c6GoalB { id := 31, status := some GoalStatus.In_Progress }
        10)).completed_date = none ∧
    (applyGoalPatch c6GoalA
      (updateGoalPatch c6GoalA { id := 30, status := some GoalStatus.Approved }
        10)).approval_date = some 10 ∧
    (applyGoalPatch c6GoalA
      (updateGoalPatch c6GoalA { id := 30 } 10)).completed_date =
      c6GoalA.completed_date ∧
    (applyGoalPatch c6GoalA
      (updateGoalPatch c6GoalA { id := 30 } 10)).approval_date =
      c6GoalA.approval_date :=
  ⟨(C6_amended_date_management c6Db
      { id := 31, status := some GoalStatus.In_Progress } 10 c6GoalB _ _
      (by decide) rfl).1 GoalStatus.In_Progress rfl (by decide) rfl rfl,
   (C6_amended_date_management c6Db
      { id := 30, status := some GoalStatus.Approved } 10 c6GoalA _ _
      (by decide) rfl).2.1 rfl (by decide) rfl,
   (C6_amended_date_management c6Db { id := 30 } 10 c6GoalA _ _
      (by decide) rfl).2.2.1 rfl rfl,
   (C6_amended_date_management c6Db { id := 30 } 10 c6GoalA _ _
      (by decide) rfl).2.2.2 rfl rfl⟩

/-! ## User manager-reference invariants -/

/-- The manager reference of one user row is valid: absent, or pointing at an
existing user row. -/
def managerOk (db : DB) (u : User) : Prop :=
  match u.manager_id with
  | none => True
  | some m => ∃ v ∈ db.users, v.id = m

instance (db : DB) (u : User) : Decidable (managerOk db u) :=
  match h : u.manager_id with
  | none => .isTrue (by simp [managerOk, h])
  | some m => decidable_of_iff (∃ v ∈ db.users, v.id = m) (by simp [managerOk, h])

/-- Every user's `manager_id`, when present, references an existing user. -/
def ManagerExists (db : DB) : Prop := ∀ u ∈ db.users, managerOk db u

/-- No user is its own manager. -/
def NoSelfManager (db : DB) : Prop := ∀ u ∈ db.users, u.manager_id ≠ some u.id

instance (db : DB) : Decidable (ManagerExists db) :=
  decidable_of_iff (∀ u ∈ db.users, managerOk db u) Iff.rfl

instance (db : DB) : Decidable (NoSelfManager db) :=
  decidable_of_iff (∀ u ∈ db.users, u.manager_id ≠ some u.id) Iff.rfl

lemma mem_le_foldr_max (l : List Nat) :
    ∀ x ∈ l, x ≤ l.foldr (fun a b => Nat.max a b) 0 := by
  induction l with
  | nil => simp
  | cons a t ih =>
    intro x hx
    rcases List.mem_cons.mp hx with h | h
    · rw [h]
      exact Nat.le_max_left a _
    · exact le_trans (ih x h) (Nat.le_max_right a _)

lemma user_id_lt_freshId (db : DB) (u : User) (hu : u ∈ db.users) :
    u.id < freshId (db.users.map (fun v => v.id)) := by
  unfold freshId
  have h := mem_le_foldr_max (db.users.map (fun v => v.id)) u.id
    (List.mem_map_of_mem (fun v => v.id) hu)
  omega

lemma findUserById_some_mem (db : DB) (id : Nat) (u : User)
    (h : findUserById db id = some u) : u ∈ db.users ∧ u.id = id := by
  unfold findUserById at h
  exact ⟨List.mem_of_find?_eq_some h, by simpa using List.find?_some h⟩

lemma managerOk_of_id_preserving (db db' : DB)
    (hlift : ∀ v ∈ db.users, ∃ v' ∈ db'.users, v'.id = v.id) (u : User)
    (h : managerOk db u) : managerOk db' u := by
  cases hm : u.manager_id with
  | none => simp [managerOk, hm]
  | some m =>
    simp only [managerOk, hm] at h ⊢
    obtain ⟨v, hv, hvid⟩ := h
    obtain ⟨v', hv', hvid'⟩ := hlift v hv
    exact ⟨v', hv', by rw [hvid', hvid]⟩

lemma createUser_ok_shape (db : DB) (input : CreateUserInput) (now : Nat)
    (db' : DB) (u' : User) (h : createUser db input now = .ok (db', u')) :
    u'.id = freshId (db.users.map (fun v => v.id)) ∧
    u'.manager_id = input.manager_id ∧
    db'.users = db.users ++ [u'] ∧
    (∀ mid, input.manager_id = some mid → mid ≠ 0 →
      ∃ w, findUserById db mid = some w ∧ w.role ∈ allowedManagerRoles) := by
  simp only [createUser] at h
  split at h
  · exact absurd h (by simp)
  · split at h
    · next htr =>
      split at h
      · next hmid =>
        have h2 := Except.ok.inj h
        have hu' : u' = _ := (congrArg Prod.snd h2).symm
        have hdb : db' = _ := (congrArg Prod.fst h2).symm
        refine ⟨by rw [hu'], by rw [hu', hmid], by rw [hdb, hu'], ?_⟩
        intro mid hmid' _
        rw [hmid] at hmid'
        cases hmid'
      · next mid hmid =>
        split at h
        · exact absurd h (by simp)
        · next manager hfind =>
          split at h
          · exact absurd h (by simp)
          · next hrole =>
            have h2 := Except.ok.inj h
            have hu' : u' = _ := (congrArg Prod.snd h2).symm
            have hdb : db' = _ := (congrArg Prod.fst h2).symm
            refine ⟨by rw [hu'], by rw [hu', hmid], by rw [hdb, hu'], ?_⟩
            intro mid' hmid' _
            rw [hmid] at hmid'
            cases hmid'
            exact ⟨manager, hfind, not_not.mp hrole⟩
    · next htr =>
      have h2 := Except.ok.inj h
      have hu' : u' = _ := (congrArg Prod.snd h2).symm
      have hdb : db' = _ := (congrArg Prod.fst h2).symm
      refine ⟨by rw [hu'], by rw [hu'], by rw [hdb, hu'], ?_⟩
      intro mid hmid hz
      exact absurd (by simp [truthyId, hmid, hz]) htr

lemma updateUser_ok_shape (db : DB) (input : UpdateUserInput) (now : Nat)
    (db' : DB) (u' : User) (h : updateUser db input now = .ok (db', u')) :
    db'.users = db.users.map
      (fun u => if u.id == input.id then applyUserPatch u input now else u) ∧
    (∀ mid, input.manager_id = some (some mid) →
      ∃ w, findUserById db mid = some w) := by
  simp only [updateUser] at h
  split at h
  · exact absurd h (by simp)
  · split at h
    · next mid hmid =>
      split at h
      · exact absurd h (by simp)
      · next w hfind =>
        have h2 := Except.ok.inj h
        refine ⟨(congrArg DB.users (congrArg Prod.fst h2)).symm, ?_⟩
        intro mid' hmid'
        rw [hmid] at hmid'
        cases hmid'
        exact ⟨w, hfind⟩
    · next hnm =>
      have h2 := Except.ok.inj h
      refine ⟨(congrArg DB.users (congrArg Prod.fst h2)).symm, ?_⟩
      intro mid hmid
      exact absurd hmid (hnm mid)

/-- C7 (amended): `createUser` (with a manager reference that is not the
falsy id `0`) preserves both halves of the invariant — every `manager_id`
references an existing user and nobody manages themselves — while
`updateUser` preserves only the existence half: it validates that a provided
manager exists but never compares it against the user's own id, so it can
make a user their own manager (see the counterexample; a `manager_id` of `0`
likewise skips `createUser`'s validation because `0` is falsy). -/
theorem C7_amended_manager_reference_integrity :
    (∀ (db : DB) (input : CreateUserInput) (now : Nat) (db' : DB) (u' : User),
      ManagerExists db → NoSelfManager db → input.manager_id ≠ some 0 →
      createUser db input now = .ok (db', u') →
      ManagerExists db' ∧ NoSelfManager db') ∧
    (∀ (db : DB) (input : UpdateUserInput) (now : Nat) (db' : DB) (u' : User),
      ManagerExists db → updateUser db input now = .ok (db', u') →
      ManagerExists db') := by
  constructor
  · intro db input now db' u' hME hNS hz h
    obtain ⟨hid, hmgr, husers, hcheck⟩ := createUser_ok_shape db input now db' u' h
    have hlift : ∀ v ∈ db.users, ∃ v' ∈ db'.users, v'.id = v.id := by
      intro v hv
      exact ⟨v, by rw [husers]; exact List.mem_append_left _ hv, rfl⟩
    constructor
    · intro u hu
      rw [husers] at hu
      rcases List.mem_append.mp hu with hold | hnew
      · exact managerOk_of_id_preserving db db' hlift u (hME u hold)
      · have hu' : u = u' := by simpa using hnew
        subst hu'
        cases hm : u.manager_id with
        | none => simp [managerOk, hm]
        | some mid =>
          have hmid : input.manager_id = some mid := by rw [← hmgr, hm]
          have hz' : mid ≠ 0 := fun hc => hz (by rw [hmid, hc])
          obtain ⟨w, hw, -⟩ := hcheck mid hmid hz'
          obtain ⟨hwmem, hwid⟩ := findUserById_some_mem db mid w hw
          simp only [managerOk, hm]
          exact ⟨w, by rw [husers]; exact List.mem_append_left _ hwmem, hwid⟩
    · intro u hu
      rw [husers] at hu
      rcases List.mem_append.mp hu with hold | hnew
      · exact hNS u hold
      · have hu' : u = u' := by simpa using hnew
        subst hu'
        cases hm : u.manager_id with
        | none => simp
        | some mid =>
          have hmid : input.manager_id = some mid := by rw [← hmgr, hm]
          have hz' : mid ≠ 0 := fun hc => hz (by rw [hmid, hc])
          obtain ⟨w, hw, -⟩ := hcheck mid hmid hz'
          obtain ⟨hwmem, hwid⟩ := findUserById_some_mem db mid w hw
          have hlt : w.id < freshId (db.users.map (fun v => v.id)) :=
            user_id_lt_freshId db w hwmem
          intro hc
          have : mid = u.id := by simpa using hc
          rw [hid, ← hwid] at this
          omega
  · intro db input now db' u' hME h
    obtain ⟨husers, hcheck⟩ := updateUser_ok_shape db input now db' u' h
    have hlift : ∀ v ∈ db.users, ∃ v' ∈ db'.users, v'.id = v.id := by
      intro v hv
      refine ⟨if v.id == input.id then applyUserPatch v input now else v, ?_, ?_⟩
      · rw [husers]
        exact List.mem_map_of_mem _ hv
      · split <;> rfl
    intro u2 hu2
    rw [husers] at hu2
    obtain ⟨u, hu, hu2eq⟩ := List.mem_map.mp hu2
    by_cases hbeq : (u.id == input.id) = true
    · rw [if_pos hbeq] at hu2eq
      subst hu2eq
      cases hm : input.manager_id with
      | none =>
        have hmm : (applyUserPatch u input now).manager_id = u.manager_id := by
          simp [applyUserPatch, hm]
        have hok := hME u hu
        cases hum : u.manager_id with
        | none => simp [managerOk, hmm, hum]
        | some m =>
          simp only [managerOk, hum] at hok
          obtain ⟨v, hv, hvid⟩ := hok
          obtain ⟨v', hv', hvid'⟩ := hlift v hv
          simp only [managerOk, hmm, hum]
          exact ⟨v', hv', by rw [hvid', hvid]⟩
      | some om =>
        cases om with
        | none =>
          simp [managerOk, applyUserPatch, hm]
        | some mid =>
          obtain ⟨w, hw⟩ := hcheck mid hm
          obtain ⟨hwmem, hwid⟩ := findUserById_some_mem db mid w hw
          obtain ⟨w', hw', hwid'⟩ := hlift w hwmem
          have hmm : (applyUserPatch u input now).manager_id = some mid := by
            simp [applyUserPatch, hm]
          simp only [managerOk, hmm]
          exact ⟨w', hw', by rw [hwid', hwid]⟩
    · rw [if_neg hbeq] at hu2eq
      subst hu2eq
      exact managerOk_of_id_preserving db db' hlift u (hME u hu)

/-- The empty store. -/
def emptyDb : DB := ⟨[], [], []⟩

/-- Input creating the first user. -/
def c7CreateInput : CreateUserInput :=
  ⟨"a@x", "A", "B", Role.Manager, none, none, none⟩

/-- The first user, as created from the empty store at time 0. -/
def c7User1 : User := ⟨1, "a@x", "A", "B", Role.Manager, none, none, none, 0, 0⟩

/-- The store after creating the first user. -/
def c7Db1 : DB := ⟨[c7User1], [], []⟩

/-- `updateUser` input making user 1 their own manager. -/
def c7UpdInput : UpdateUserInput := { id := 1, manager_id := some (some 1) }

/-- User 1 after the self-manager update. -/
def c7User2 : User := ⟨1, "a@x", "A", "B", Role.Manager, none, some 1, none, 0, 5⟩

/-- The store after the self-manager update. -/
def c7Db2 : DB := ⟨[c7User2], [], []⟩

/-- Input creating a user whose `manager_id` is the falsy id `0`. -/
def c7ZeroInput : CreateUserInput :=
  ⟨"b@x", "A", "B", Role.Employee, none, some 0, none⟩

/-- The user created with the dangling `manager_id = 0`. -/
def c7User3 : User := ⟨2, "b@x", "A", "B", Role.Employee, none, some 0, none, 1, 1⟩

/-- The store holding the dangling `manager_id = 0` row. -/
def c7Db3 : DB := ⟨[c7User1, c7User3], [], []⟩

/-- Counterexample to C7 as stated: starting from a reachable one-user store
(created from the empty store), `updateUser(id = 1, manager_id = 1)` succeeds
and makes user 1 their own manager; and `createUser` with `manager_id = 0`
(falsy in JavaScript, so the existence check is skipped) succeeds and leaves
a dangling manager reference. -/
theorem C7_counterexample_self_manager_and_falsy_zero :
    createUser emptyDb c7CreateInput 0 = .ok (c7Db1, c7User1) ∧
    ManagerExists c7Db1 ∧ NoSelfManager c7Db1 ∧
    updateUser c7Db1 c7UpdInput 5 = .ok (c7Db2, c7User2) ∧
    c7User2.manager_id = some c7User2.id ∧
    ¬ NoSelfManager c7Db2 ∧
    createUser c7Db1 c7ZeroInput 1 = .ok (c7Db3, c7User3) ∧
    c7User3.manager_id = some 0 ∧
    (∀ v ∈ c7Db3.users, v.id ≠ 0) ∧
    ¬ ManagerExists c7Db3 :=
  ⟨rfl, by decide, by decide, rfl, rfl, by decide, rfl, rfl, by decide, by decide⟩

/-- The user created by the witness call, referencing user 1. -/
def c7WUser : User := ⟨2, "c@x", "A", "B", Role.Employee, none, some 1, none, 2, 2⟩

/-- The store after the witness creation. -/
def c7WDb : DB := ⟨[c7User1, c7WUser], [], []⟩

/-- User 1 after the witness email update. -/
def c7WUser2 : User := ⟨1, "z@x", "A", "B", Role.Manager, none, none, none, 0, 3⟩

/-- The store after the witness email update. -/
def c7WDb2 : DB := ⟨[c7WUser2], [], []⟩

/-- Witness for the amended C7: a valid creation referencing user 1, and a
plain field update, both preserve the manager-existence invariant. -/
theorem C7_amended_manager_reference_integrity_witness :
    (ManagerExists c7WDb ∧ NoSelfManager c7WDb) ∧ ManagerExists c7WDb2 :=
  ⟨C7_amended_manager_reference_integrity.1 c7Db1
     ⟨"c@x", "A", "B", Role.Employee, none, some 1, none⟩ 2 c7WDb c7WUser
     (by decide) (by decide) (by decide) (by rfl),
   C7_amended_manager_reference_integrity.2 c7Db1
     { id := 1, email := some "z@x" } 3 c7WDb2 c7WUser2 (by decide) (by rfl)⟩

end GrowthTracker
